import Mathlib

/-!
Shallow embedding of the Torrents scraper pipeline (src/main.rs, src/config.rs).

The program is a four-stage resumable download pipeline:
  Step 1  validates proxy candidates against a baseline egress IP (check_proxy);
  Step 2  fetches the index page and scrapes the total page count;
  Step 3  if the scraped count exceeds checkpoint.max_pages, re-fetches every page
          1..=count through the queue-based downloader, updates max_pages, saves;
  Step 4  re-derives checkpoint.entries from the page files 1..count-1, sorts,
          dedups, saves;
  Step 5  fetches every entry whose destination file is absent;
  Step 6  (only when Step 5 had work) re-derives checkpoint.torrents from all
          entry files, sorts, dedups, saves;
  Step 7  maps each torrent URL through a fixed regex template to a local path
          and fetches the ones whose destination file is absent.

External effects are abstracted as inputs:
  `disk : String → Bool` is the file-existence oracle (fs::metadata(path).is_ok()),
  `rf : String → Option (List String)` is the extraction oracle: for a file path it
  returns `none` when reading the file fails and otherwise the list of href
  attribute values of the anchor elements of the parsed document (HTML parsing by
  the external scraper crate is the abstracted part; the suffix filtering and the
  BASE_URL stripping that src/main.rs performs on those hrefs are modelled below),
  `scraped : Nat` is the page count parsed from the index page in Step 2.

A call to `Config::save` (src/config.rs) truncates and rewrites the checkpoint
file wholesale; we record the saved snapshots in order in `RunResult.saves`, so
`saves = []` means the checkpoint file on disk is untouched by the run.
-/

namespace Torrents

def BASE_URL : String := "http://www.ptorrents.com"

def ADDR_URL : String := "https://api.seeip.org"

/-- A download job: (source url, destination path), as in `type File = (String, String)`. -/
abbrev Job := String × String

/-- The checkpoint record of src/config.rs (`struct Config`). -/
structure Config where
  max_pages : Nat
  entries : List String
  torrents : List String
deriving DecidableEq

/-- Rust `Vec::dedup`: remove consecutive repeated elements. -/
def dedupConsec {α : Type} [DecidableEq α] : List α → List α
  | [] => []
  | [a] => [a]
  | a :: b :: l => if a = b then dedupConsec (b :: l) else a :: dedupConsec (b :: l)

/-- Rust `vec.sort(); vec.dedup()` on strings.  Rust's sort is a stable sort;
on a linearly ordered element type every correct sort returns the same list, so
insertion sort is an exact model of it. -/
def rustSortDedup (l : List String) : List String :=
  dedupConsec (l.insertionSort (· ≤ ·))

/-- URL of page `p` (src/main.rs line 84). -/
def pageUrl (p : Nat) : String := BASE_URL ++ "/page/" ++ toString p

/-- Destination path of page `p` (src/main.rs line 85). -/
def pagePath (base : String) (p : Nat) : String :=
  base ++ "/HTML/PAGES/" ++ toString p ++ ".HTML"

/-- URL of an entry (src/main.rs line 122). -/
def entryUrl (e : String) : String := BASE_URL ++ "/" ++ e

/-- Destination path of an entry (src/main.rs line 123). -/
def entryPath (base : String) (e : String) : String :=
  base ++ "/HTML/ENTRIES/" ++ e ++ ".HTML"

/-- Destination path of a torrent with matched path segment `p` and name
segment `n` (src/main.rs line 176). -/
def torrentDest (base p n : String) : String :=
  base ++ "/TORRENT/" ++ p ++ "/" ++ n ++ ".TORRENT"

/-- Step 3's job list: one job per page index 1..=c (src/main.rs lines 82-88). -/
def pageJobs (base : String) (c : Nat) : List Job :=
  (List.range' 1 c).map (fun p => (pageUrl p, pagePath base p))

/-- `scrape_files` of src/main.rs (lines 256-272), with the file reading and the
HTML parsing abstracted into `rf`: on read failure the Result is an error
(`none`); otherwise the hrefs are filtered by the suffix `pat` and `BASE_URL`
is removed from each (Rust `str::replace` replaces every occurrence, as does
`String.replace`). -/
def scrape_files (rf : String → Option (List String)) : String × String → Option (List String) :=
  fun pp =>
    (rf pp.1).map (fun hs =>
      (hs.filter (fun s => s.endsWith pp.2)).map (fun s => s.replace BASE_URL ""))

/-- Step 4 (src/main.rs lines 99-109): scrape the page files for indices
`1..max_pages` (exclusive upper bound, so pages 1..n-1), keep the successful
reads, flatten, sort, dedup. -/
def deriveEntries (base : String) (n : Nat) (rf : String → Option (List String)) : List String :=
  rustSortDedup
    ((((List.range' 1 (n - 1)).map (fun p => (pagePath base p, ".html"))).filterMap
      (scrape_files rf)).flatten)

/-- Step 6 (src/main.rs lines 139-150): scrape every entry file (all of
`config.entries`, not only the new ones), flatten, sort, dedup. -/
def deriveTorrents (base : String) (entries : List String) (rf : String → Option (List String)) :
    List String :=
  rustSortDedup
    (((entries.map (fun e => (entryPath base e, ".torrent"))).filterMap
      (scrape_files rf)).flatten)

/-- Step 5's job list (src/main.rs lines 118-127): one job per entry, keeping
those whose destination file is absent (`fs::metadata(path).is_err()`). -/
def entryJobs (base : String) (entries : List String) (disk : String → Bool) : List Job :=
  (entries.map (fun e => (entryUrl e, entryPath base e))).filter (fun j => !(disk j.2))

/-! ### The Step 7 URL template

src/main.rs line 158 compiles
`^https://d\.ptorrents\.com/(.+)/\[ptorrents.com\]\.(.+)\.torrent$`
and line 163-179 filter-maps each checkpoint torrent through it.  We embed this
one concrete regular expression directly over `List Char`.  Notes kept faithful
to the regex crate's semantics: `.` matches any character except a newline; the
dot of `ptorrents.com` inside the bracketed tag is NOT escaped, so it matches an
arbitrary non-newline character; the two `(.+)` groups are greedy, and with the
anchors the first group extends to the last feasible tag position while the
second is forced by the `$` anchor. -/

/-- Drop the literal character sequence `lit` from the front of `s`, or fail. -/
def dropLit : List Char → List Char → Option (List Char)
  | [], s => some s
  | _ :: _, [] => none
  | l :: ls, c :: cs => if l = c then dropLit ls cs else none

/-- Match `\[ptorrents.com\]\.` (with the middle dot a wildcard) at the front. -/
def dropTag (s : List Char) : Option (List Char) :=
  match dropLit "[ptorrents".data s with
  | none => none
  | some rest =>
    match rest with
    | [] => none
    | c :: rest2 => if c = '\n' then none else dropLit "com].".data rest2

/-- Match `(.+)\.torrent$`: the whole remainder must be the (nonempty,
newline-free) name group followed by the literal `.torrent`. -/
def torrentName (s : List Char) : Option (List Char) :=
  let k := s.length - 8
  if s.drop k = ".torrent".data ∧ s.take k ≠ [] ∧ '\n' ∉ s.take k then
    some (s.take k)
  else none

/-- Greedy decomposition `u = path ++ '/' :: tag ++ name ++ ".torrent"`: the
recursion prefers the deepest (rightmost) feasible tag position, which is the
decomposition the greedy first group produces; a newline can occur nowhere. -/
def torrentSplit : List Char → Option (List Char × List Char)
  | [] => none
  | c :: cs =>
    let here : Option (List Char × List Char) :=
      if c = '/' then
        match dropTag cs with
        | some rest =>
          match torrentName rest with
          | some n => some ([], n)
          | none => none
        | none => none
      else none
    match torrentSplit cs with
    | some (p, n) => if c = '\n' then here else some (c :: p, n)
    | none => here

/-- The full template match of src/main.rs lines 158-174: returns the two
capture groups (path segment, name segment). -/
def torrentMatch (s : String) : Option (String × String) :=
  match dropLit "https://d.ptorrents.com/".data s.data with
  | none => none
  | some u =>
    match torrentSplit u with
    | some (p, n) => if p = [] then none else some (String.mk p, String.mk n)
    | none => none

/-- One checkpoint torrent mapped to its job, if the template matches
(src/main.rs lines 163-179). -/
def torrentJob (base : String) (t : String) : Option Job :=
  (torrentMatch t).map (fun pn => (t, torrentDest base pn.1 pn.2))

/-- Step 7's job list (src/main.rs lines 160-181): template-map each torrent,
drop non-matching ones, keep jobs whose destination file is absent. -/
def torrentJobs (base : String) (torrents : List String) (disk : String → Bool) : List Job :=
  (torrents.filterMap (torrentJob base)).filter (fun j => !(disk j.2))

/-- Files written by a list of completed jobs, added to the existence oracle. -/
def addPaths (disk : String → Bool) (jobs : List Job) : String → Bool :=
  fun p => disk p || jobs.any (fun j => j.2 == p)

/-- The observable trace of one run of `main`: the final checkpoint, the job
lists submitted to `save_files` by Steps 3, 5 and 7, and the checkpoint
snapshots persisted by `Config::save`, in order. -/
structure RunResult where
  config : Config
  pagesJobs : List Job
  entriesJobs : List Job
  torrentsJobs : List Job
  saves : List Config
deriving DecidableEq

/-- Steps 5-7 of src/main.rs (lines 117-189), shared by both branches of the
Step-3 condition.  `cfg` is the checkpoint as of the end of Step 4, `pjobs` and
`saves0` the trace accumulated so far, `disk` the existence oracle after the
page files were written. -/
def runStage567 (base : String) (cfg : Config) (pjobs : List Job) (saves0 : List Config)
    (disk : String → Bool) (rf : String → Option (List String)) : RunResult :=
  let ejobs := entryJobs base cfg.entries disk
  let cfg2 := if ejobs.length > 0 then
      { cfg with torrents := deriveTorrents base cfg.entries rf } else cfg
  let saves2 : List Config := if ejobs.length > 0 then
      [{ cfg with torrents := deriveTorrents base cfg.entries rf }] else []
  ⟨cfg2, pjobs, ejobs, torrentJobs base cfg2.torrents (addPaths disk ejobs),
    saves0 ++ saves2⟩

/-- Steps 3-7 of `main` (src/main.rs lines 81-189).  `scraped` is the page
count obtained in Step 2.  When `scraped > cfg.max_pages`, Step 3 submits one
job per page 1..=scraped, sets `max_pages`, saves, and Step 4 re-derives
`entries` from pages 1..scraped-1 and saves again; otherwise both are skipped. -/
def runPipeline (base : String) (cfg : Config) (scraped : Nat) (disk : String → Bool)
    (rf : String → Option (List String)) : RunResult :=
  if scraped > cfg.max_pages then
    runStage567 base
      { max_pages := scraped, entries := deriveEntries base scraped rf,
        torrents := cfg.torrents }
      (pageJobs base scraped)
      [{ cfg with max_pages := scraped },
       { max_pages := scraped, entries := deriveEntries base scraped rf,
         torrents := cfg.torrents }]
      (addPaths disk (pageJobs base scraped)) rf
  else
    runStage567 base cfg [] [] disk rf

/-- Validated clients are represented by their proxy scheme string. -/
abbrev Client := String

/-- The fatal outcomes of `main` before the pipeline stages do any work. -/
inductive RunError where
  | noClients
deriving DecidableEq

/-- `main` after proxy validation: Step 2 immediately evaluates `&clients[0]`
(src/main.rs line 67); on an empty client vector this indexing panics and the
process aborts before any fetch, any job submission and any checkpoint write. -/
def runMain (base : String) (clients : List Client) (cfg : Config) (scraped : Nat)
    (disk : String → Bool) (rf : String → Option (List String)) : Except RunError RunResult :=
  match clients with
  | [] => Except.error RunError.noClients
  | _ :: _ => Except.ok (runPipeline base cfg scraped disk rf)

/-! ### Helper lemmas about sorting and deduplication -/

theorem mem_dedupConsec {α : Type} [DecidableEq α] :
    ∀ {l : List α} {x : α}, x ∈ dedupConsec l → x ∈ l
  | [], x, h => by simp [dedupConsec] at h
  | [a], x, h => by simpa [dedupConsec] using h
  | a :: b :: l, x, h => by
    by_cases hab : a = b
    · simp only [dedupConsec, if_pos hab] at h
      exact List.mem_cons_of_mem a (mem_dedupConsec h)
    · simp only [dedupConsec, if_neg hab] at h
      rcases List.mem_cons.mp h with h | h
      · exact h ▸ List.mem_cons_self a (b :: l)
      · exact List.mem_cons_of_mem a (mem_dedupConsec h)

theorem dedupConsec_sorted {α : Type} [LinearOrder α] [DecidableEq α] :
    ∀ {l : List α}, l.Sorted (· ≤ ·) → (dedupConsec l).Sorted (· < ·)
  | [], _ => by simp [dedupConsec]
  | [a], _ => by simp [dedupConsec]
  | a :: b :: l, h => by
    have hab : a ≤ b := (List.sorted_cons.mp h).1 b (List.mem_cons_self b l)
    have h' : (b :: l).Sorted (· ≤ ·) := (List.sorted_cons.mp h).2
    by_cases he : a = b
    · simpa only [dedupConsec, if_pos he] using dedupConsec_sorted h'
    · simp only [dedupConsec, if_neg he]
      refine List.sorted_cons.mpr ⟨?_, dedupConsec_sorted h'⟩
      intro x hx
      have hb : a < b := lt_of_le_of_ne hab he
      rcases List.mem_cons.mp (mem_dedupConsec hx) with rfl | hxl
      · exact hb
      · exact lt_of_lt_of_le hb ((List.sorted_cons.mp h').1 x hxl)

theorem rustSortDedup_sorted_lt (l : List String) : (rustSortDedup l).Sorted (· < ·) := by
  unfold rustSortDedup
  exact dedupConsec_sorted (List.sorted_insertionSort (· ≤ ·) l)

theorem rustSortDedup_sorted (l : List String) : (rustSortDedup l).Sorted (· ≤ ·) :=
  (rustSortDedup_sorted_lt l).imp (fun h => le_of_lt h)

theorem rustSortDedup_nodup (l : List String) : (rustSortDedup l).Nodup :=
  (rustSortDedup_sorted_lt l).imp (fun h => ne_of_lt h)

/-! ### Projection lemmas for the pipeline -/

theorem runStage567_pagesJobs (base : String) (cfg : Config) (pjobs : List Job)
    (saves0 : List Config) (disk : String → Bool) (rf : String → Option (List String)) :
    (runStage567 base cfg pjobs saves0 disk rf).pagesJobs = pjobs := rfl

theorem runStage567_entriesJobs (base : String) (cfg : Config) (pjobs : List Job)
    (saves0 : List Config) (disk : String → Bool) (rf : String → Option (List String)) :
    (runStage567 base cfg pjobs saves0 disk rf).entriesJobs = entryJobs base cfg.entries disk :=
  rfl

theorem runStage567_config_entries (base : String) (cfg : Config) (pjobs : List Job)
    (saves0 : List Config) (disk : String → Bool) (rf : String → Option (List String)) :
    (runStage567 base cfg pjobs saves0 disk rf).config.entries = cfg.entries := by
  simp only [runStage567]
  split <;> rfl

theorem runStage567_config_max_pages (base : String) (cfg : Config) (pjobs : List Job)
    (saves0 : List Config) (disk : String → Bool) (rf : String → Option (List String)) :
    (runStage567 base cfg pjobs saves0 disk rf).config.max_pages = cfg.max_pages := by
  simp only [runStage567]
  split <;> rfl

theorem runStage567_config_torrents (base : String) (cfg : Config) (pjobs : List Job)
    (saves0 : List Config) (disk : String → Bool) (rf : String → Option (List String)) :
    (runStage567 base cfg pjobs saves0 disk rf).config.torrents =
      (if (entryJobs base cfg.entries disk).length > 0 then
        deriveTorrents base cfg.entries rf else cfg.torrents) := by
  simp only [runStage567]
  split <;> rfl

theorem runStage567_saves (base : String) (cfg : Config) (pjobs : List Job)
    (saves0 : List Config) (disk : String → Bool) (rf : String → Option (List String)) :
    (runStage567 base cfg pjobs saves0 disk rf).saves =
      saves0 ++ (if (entryJobs base cfg.entries disk).length > 0 then
        [{ cfg with torrents := deriveTorrents base cfg.entries rf }] else []) := by
  simp only [runStage567]

theorem runStage567_torrentsJobs (base : String) (cfg : Config) (pjobs : List Job)
    (saves0 : List Config) (disk : String → Bool) (rf : String → Option (List String)) :
    (runStage567 base cfg pjobs saves0 disk rf).torrentsJobs =
      torrentJobs base
        (if (entryJobs base cfg.entries disk).length > 0 then
          deriveTorrents base cfg.entries rf else cfg.torrents)
        (addPaths disk (entryJobs base cfg.entries disk)) := by
  simp only [runStage567]
  split <;> rfl

theorem runPipeline_pos (base : String) (cfg : Config) (scraped : Nat) (disk : String → Bool)
    (rf : String → Option (List String)) (h : cfg.max_pages < scraped) :
    runPipeline base cfg scraped disk rf =
      runStage567 base
        { max_pages := scraped, entries := deriveEntries base scraped rf,
          torrents := cfg.torrents }
        (pageJobs base scraped)
        [{ cfg with max_pages := scraped },
         { max_pages := scraped, entries := deriveEntries base scraped rf,
           torrents := cfg.torrents }]
        (addPaths disk (pageJobs base scraped)) rf := by
  simp only [runPipeline, gt_iff_lt, if_pos h]

theorem runPipeline_neg (base : String) (cfg : Config) (scraped : Nat) (disk : String → Bool)
    (rf : String → Option (List String)) (h : ¬ cfg.max_pages < scraped) :
    runPipeline base cfg scraped disk rf = runStage567 base cfg [] [] disk rf := by
  simp only [runPipeline, gt_iff_lt, if_neg h]

theorem addPaths_nil (disk : String → Bool) (p : String) : addPaths disk [] p = disk p := by
  simp [addPaths]

theorem entryJobs_eq_nil (base : String) (entries : List String) (disk : String → Bool)
    (h : ∀ e ∈ entries, disk (entryPath base e) = true) :
    entryJobs base entries disk = [] := by
  refine List.filter_eq_nil_iff.mpr ?_
  intro j hj
  rcases List.mem_map.mp hj with ⟨e, he, rfl⟩
  simp [h e he]

theorem torrentJobs_eq_nil (base : String) (ts : List String) (disk : String → Bool)
    (h : ∀ t ∈ ts, ∀ p n, torrentMatch t = some (p, n) → disk (torrentDest base p n) = true) :
    torrentJobs base ts disk = [] := by
  refine List.filter_eq_nil_iff.mpr ?_
  intro j hj
  rcases List.mem_filterMap.mp hj with ⟨t, ht, hjt⟩
  unfold torrentJob at hjt
  rcases Option.map_eq_some'.mp hjt with ⟨pn, hm, rfl⟩
  simp [h t ht pn.1 pn.2 hm]

/-! ### Claim theorems -/

/-- C1: a second run of the full pipeline with the remote source unchanged —
the scraped page count equals `checkpoint.max_pages` and every entry and
torrent destination file already exists on disk — submits zero download jobs
to the Downloader (Steps 3, 5 and 7 are all skipped) and performs no
`Config::save` call at all, so the checkpoint file left by the first run is
untouched and hence byte-identical. -/
theorem c1_second_run_idempotent (base : String) (cfg : Config) (scraped : Nat)
    (disk : String → Bool) (rf : String → Option (List String))
    (h1 : scraped = cfg.max_pages)
    (h2 : ∀ e ∈ cfg.entries, disk (entryPath base e) = true)
    (h3 : ∀ t ∈ cfg.torrents, ∀ p n, torrentMatch t = some (p, n) →
            disk (torrentDest base p n) = true) :
    (runPipeline base cfg scraped disk rf).pagesJobs = [] ∧
    (runPipeline base cfg scraped disk rf).entriesJobs = [] ∧
    (runPipeline base cfg scraped disk rf).torrentsJobs = [] ∧
    (runPipeline base cfg scraped disk rf).saves = [] ∧
    (runPipeline base cfg scraped disk rf).config = cfg := by
  have hneg : ¬ cfg.max_pages < scraped := by omega
  rw [runPipeline_neg base cfg scraped disk rf hneg]
  have hej : entryJobs base cfg.entries disk = [] := entryJobs_eq_nil base cfg.entries disk h2
  have hlen : ¬ (entryJobs base cfg.entries disk).length > 0 := by
    rw [hej]; simp
  refine ⟨runStage567_pagesJobs .., ?_, ?_, ?_, ?_⟩
  · rw [runStage567_entriesJobs]; exact hej
  · rw [runStage567_torrentsJobs, if_neg hlen]
    refine torrentJobs_eq_nil base cfg.torrents _ ?_
    intro t ht p n hm
    rw [hej]
    rw [addPaths_nil]
    exact h3 t ht p n hm
  · rw [runStage567_saves, if_neg hlen]
    simp
  · have he : (runStage567 base cfg [] [] disk rf).config.entries = cfg.entries :=
      runStage567_config_entries ..
    have hm : (runStage567 base cfg [] [] disk rf).config.max_pages = cfg.max_pages :=
      runStage567_config_max_pages ..
    have ht : (runStage567 base cfg [] [] disk rf).config.torrents = cfg.torrents := by
      rw [runStage567_config_torrents, if_neg hlen]
    cases hc : (runStage567 base cfg [] [] disk rf).config
    cases cfg
    rw [hc] at he hm ht
    simp_all

theorem c1_second_run_idempotent_witness :
    (runPipeline "/out" ⟨3, ["e1"], ["x"]⟩ 3 (fun _ => true) (fun _ => none)).pagesJobs = [] ∧
    (runPipeline "/out" ⟨3, ["e1"], ["x"]⟩ 3 (fun _ => true) (fun _ => none)).entriesJobs = [] ∧
    (runPipeline "/out" ⟨3, ["e1"], ["x"]⟩ 3 (fun _ => true) (fun _ => none)).torrentsJobs = [] ∧
    (runPipeline "/out" ⟨3, ["e1"], ["x"]⟩ 3 (fun _ => true) (fun _ => none)).saves = [] ∧
    (runPipeline "/out" ⟨3, ["e1"], ["x"]⟩ 3 (fun _ => true) (fun _ => none)).config =
      ⟨3, ["e1"], ["x"]⟩ :=
  c1_second_run_idempotent "/out" ⟨3, ["e1"], ["x"]⟩ 3 (fun _ => true) (fun _ => none)
    rfl (fun _ _ => rfl) (fun _ _ _ _ _ => rfl)

/-- C2: Step 3 (the page-fetch stage) executes iff the freshly scraped count
exceeds `checkpoint.max_pages`; when it executes it submits exactly one job per
page index 1..=scraped (a full re-fetch), sets `max_pages` to the scraped count
and persists the checkpoint (the first saved snapshot carries the new
`max_pages`); otherwise it submits nothing and `max_pages` is unchanged — so
`max_pages` never decreases across runs. -/
theorem c2_pages_stage (base : String) (cfg : Config) (scraped : Nat)
    (disk : String → Bool) (rf : String → Option (List String)) :
    (cfg.max_pages < scraped →
      (runPipeline base cfg scraped disk rf).pagesJobs =
        (List.range' 1 scraped).map (fun p => (pageUrl p, pagePath base p)) ∧
      (runPipeline base cfg scraped disk rf).pagesJobs.length = scraped ∧
      (runPipeline base cfg scraped disk rf).config.max_pages = scraped ∧
      (runPipeline base cfg scraped disk rf).saves.head? =
        some { cfg with max_pages := scraped }) ∧
    (¬ cfg.max_pages < scraped →
      (runPipeline base cfg scraped disk rf).pagesJobs = [] ∧
      (runPipeline base cfg scraped disk rf).config.max_pages = cfg.max_pages) ∧
    cfg.max_pages ≤ (runPipeline base cfg scraped disk rf).config.max_pages := by
  by_cases h : cfg.max_pages < scraped
  · rw [runPipeline_pos base cfg scraped disk rf h]
    refine ⟨fun _ => ⟨runStage567_pagesJobs .., ?_, ?_, ?_⟩, fun hc => absurd h hc, ?_⟩
    · rw [runStage567_pagesJobs]
      simp [pageJobs]
    · rw [runStage567_config_max_pages]
    · rw [runStage567_saves]
      rfl
    · rw [runStage567_config_max_pages]
      exact le_of_lt h
  · rw [runPipeline_neg base cfg scraped disk rf h]
    refine ⟨fun hc => absurd hc h, fun _ => ⟨runStage567_pagesJobs .., ?_⟩, ?_⟩
    · exact runStage567_config_max_pages ..
    · rw [runStage567_config_max_pages]

theorem c2_pages_stage_witness :
    ((runPipeline "b" ⟨0, [], []⟩ 2 (fun _ => false) (fun _ => none)).pagesJobs =
        (List.range' 1 2).map (fun p => (pageUrl p, pagePath "b" p)) ∧
      (runPipeline "b" ⟨0, [], []⟩ 2 (fun _ => false) (fun _ => none)).pagesJobs.length = 2 ∧
      (runPipeline "b" ⟨0, [], []⟩ 2 (fun _ => false) (fun _ => none)).config.max_pages = 2 ∧
      (runPipeline "b" ⟨0, [], []⟩ 2 (fun _ => false) (fun _ => none)).saves.head? =
        some ⟨2, [], []⟩) ∧
    ((runPipeline "b" ⟨5, [], []⟩ 4 (fun _ => false) (fun _ => none)).pagesJobs = [] ∧
      (runPipeline "b" ⟨5, [], []⟩ 4 (fun _ => false) (fun _ => none)).config.max_pages = 5) :=
  ⟨(c2_pages_stage "b" ⟨0, [], []⟩ 2 (fun _ => false) (fun _ => none)).1 (by decide),
   (c2_pages_stage "b" ⟨5, [], []⟩ 4 (fun _ => false) (fun _ => none)).2.1 (by decide)⟩

/-- C3: whenever a stage rewrites `checkpoint.entries` (Step 4) or
`checkpoint.torrents` (Step 6), the rewritten list is sorted ascending with no
duplicates, for every possible content of the scraped files (every extraction
oracle `rf`). -/
theorem c3_sorted_dedup (base : String) (cfg : Config) (scraped : Nat)
    (disk : String → Bool) (rf : String → Option (List String)) :
    (cfg.max_pages < scraped →
      (runPipeline base cfg scraped disk rf).config.entries.Sorted (· ≤ ·) ∧
      (runPipeline base cfg scraped disk rf).config.entries.Nodup) ∧
    ((runPipeline base cfg scraped disk rf).entriesJobs ≠ [] →
      (runPipeline base cfg scraped disk rf).config.torrents.Sorted (· ≤ ·) ∧
      (runPipeline base cfg scraped disk rf).config.torrents.Nodup) := by
  constructor
  · intro h
    rw [runPipeline_pos base cfg scraped disk rf h, runStage567_config_entries]
    exact ⟨rustSortDedup_sorted _, rustSortDedup_nodup _⟩
  · intro h
    by_cases hb : cfg.max_pages < scraped
    · rw [runPipeline_pos base cfg scraped disk rf hb] at h ⊢
      rw [runStage567_entriesJobs] at h
      have hlen : (entryJobs base
          (Config.mk scraped (deriveEntries base scraped rf) cfg.torrents).entries
          (addPaths disk (pageJobs base scraped))).length > 0 :=
        List.length_pos.mpr h
      rw [runStage567_config_torrents, if_pos hlen]
      exact ⟨rustSortDedup_sorted _, rustSortDedup_nodup _⟩
    · rw [runPipeline_neg base cfg scraped disk rf hb] at h ⊢
      rw [runStage567_entriesJobs] at h
      have hlen : (entryJobs base cfg.entries disk).length > 0 := List.length_pos.mpr h
      rw [runStage567_config_torrents, if_pos hlen]
      exact ⟨rustSortDedup_sorted _, rustSortDedup_nodup _⟩

theorem c3_sorted_dedup_witness :
    ((runPipeline "b" ⟨0, [], []⟩ 1 (fun _ => false) (fun _ => none)).config.entries.Sorted
        (· ≤ ·) ∧
      (runPipeline "b" ⟨0, [], []⟩ 1 (fun _ => false) (fun _ => none)).config.entries.Nodup) ∧
    ((runPipeline "b" ⟨1, ["e"], []⟩ 0 (fun _ => false) (fun _ => none)).config.torrents.Sorted
        (· ≤ ·) ∧
      (runPipeline "b" ⟨1, ["e"], []⟩ 0 (fun _ => false) (fun _ => none)).config.torrents.Nodup) :=
  ⟨(c3_sorted_dedup "b" ⟨0, [], []⟩ 1 (fun _ => false) (fun _ => none)).1 (by decide),
   (c3_sorted_dedup "b" ⟨1, ["e"], []⟩ 0 (fun _ => false) (fun _ => none)).2 (by decide)⟩

/-- C5 (counterexample): the claimed source locator, taken literally, does NOT
map to any job: the template `\[ptorrents.com\]` requires the bracketed site
tag, and the literal segment `[site]` fails it, so Step 7 drops this locator
instead of producing the claimed destination. -/
theorem c5_counterexample :
    torrentJob "/out" "https://d.ptorrents.com/Movies/2024/[site].Example.Title.torrent" =
      none ∧
    torrentJobs "/out" ["https://d.ptorrents.com/Movies/2024/[site].Example.Title.torrent"]
      (fun _ => false) = [] := by
  constructor <;> decide

/-- C5 (amended): with the site tag spelled out, the locator
`https://d.ptorrents.com/Movies/2024/[ptorrents.com].Example.Title.torrent`
under base path `/out` maps to the destination
`/out/TORRENT/Movies/2024/Example.Title.TORRENT`; any locator not matching the
template yields no job — every job's source matches the template, so a
non-matching torrent string is never a job source (it stays recorded in
`checkpoint.torrents`, which Step 7 never rewrites). -/
theorem c5_torrent_mapping (base : String) (ts : List String) (disk : String → Bool) :
    torrentJob "/out"
        "https://d.ptorrents.com/Movies/2024/[ptorrents.com].Example.Title.torrent" =
      some ("https://d.ptorrents.com/Movies/2024/[ptorrents.com].Example.Title.torrent",
        "/out/TORRENT/Movies/2024/Example.Title.TORRENT") ∧
    (∀ j ∈ torrentJobs base ts disk, torrentMatch j.1 ≠ none) ∧
    (∀ t ∈ ts, torrentMatch t = none → ∀ j ∈ torrentJobs base ts disk, j.1 ≠ t) := by
  refine ⟨by decide, ?_, ?_⟩
  · intro j hj
    rcases List.mem_filter.mp hj with ⟨hj', _⟩
    rcases List.mem_filterMap.mp hj' with ⟨t, ht, hjt⟩
    unfold torrentJob at hjt
    rcases Option.map_eq_some'.mp hjt with ⟨pn, hm, rfl⟩
    simp [hm]
  · intro t ht hmt j hj h1
    rcases List.mem_filter.mp hj with ⟨hj', _⟩
    rcases List.mem_filterMap.mp hj' with ⟨t', ht', hjt⟩
    unfold torrentJob at hjt
    rcases Option.map_eq_some'.mp hjt with ⟨pn, hm, rfl⟩
    simp only at h1
    rw [h1, hmt] at hm
    cases hm

theorem c5_torrent_mapping_witness :
    torrentMatch
        (("https://d.ptorrents.com/Movies/2024/[ptorrents.com].Example.Title.torrent",
          "/out/TORRENT/Movies/2024/Example.Title.TORRENT") : Job).1 ≠ none ∧
    ((("https://d.ptorrents.com/Movies/2024/[ptorrents.com].Example.Title.torrent",
        "/out/TORRENT/Movies/2024/Example.Title.TORRENT") : Job).1 ≠
      "https://d.ptorrents.com/Movies/2024/[site].Example.Title.torrent") :=
  ⟨(c5_torrent_mapping "/out"
      ["https://d.ptorrents.com/Movies/2024/[ptorrents.com].Example.Title.torrent",
       "https://d.ptorrents.com/Movies/2024/[site].Example.Title.torrent"]
      (fun _ => false)).2.1 _ (by decide),
   (c5_torrent_mapping "/out"
      ["https://d.ptorrents.com/Movies/2024/[ptorrents.com].Example.Title.torrent",
       "https://d.ptorrents.com/Movies/2024/[site].Example.Title.torrent"]
      (fun _ => false)).2.2
      "https://d.ptorrents.com/Movies/2024/[site].Example.Title.torrent"
      (by decide) (by decide) _ (by decide)⟩

/-- C6: whenever Step 4 (entry derivation) runs with the new
`checkpoint.max_pages = n` (n ≥ 1), it derives `entries` by applying the
extractor exactly to the page files of indices 1..n-1 — the derivation depends
only on the extraction oracle's values at `pagePath base p` for 1 ≤ p < n, page
n excluded — and the scanned index list `range' 1 (n-1)` is exactly
{p : 1 ≤ p < n}.  In particular with a scrape reporting 7 pages and a smaller
checkpoint, Step 3 issues exactly 7 fetch jobs (pages 1..=7) and Step 4 derives
entries from `deriveEntries base 7`, which reads pages 1..6 only. -/
theorem c6_entries_from_pages (base : String) (n : Nat) (cfg : Config) (disk : String → Bool)
    (rf rf' : String → Option (List String))
    (hn : 1 ≤ n)
    (hagree : ∀ p, 1 ≤ p → p < n → rf (pagePath base p) = rf' (pagePath base p)) :
    deriveEntries base n rf = deriveEntries base n rf' ∧
    (∀ p, p ∈ List.range' 1 (n - 1) ↔ (1 ≤ p ∧ p < n)) ∧
    (cfg.max_pages < 7 →
      (runPipeline base cfg 7 disk rf).pagesJobs.length = 7 ∧
      (runPipeline base cfg 7 disk rf).pagesJobs = pageJobs base 7 ∧
      (runPipeline base cfg 7 disk rf).config.entries = deriveEntries base 7 rf) := by
  refine ⟨?_, ?_, ?_⟩
  · unfold deriveEntries
    congr 2
    rw [List.filterMap_map, List.filterMap_map]
    refine List.filterMap_congr ?_
    intro p hp
    have hb := List.mem_range'_1.mp hp
    have hr : rf (pagePath base p) = rf' (pagePath base p) := hagree p hb.1 (by omega)
    simp [Function.comp, scrape_files, hr]
  · intro p
    rw [List.mem_range'_1]
    omega
  · intro h
    rw [runPipeline_pos base cfg 7 disk rf h]
    refine ⟨?_, runStage567_pagesJobs .., ?_⟩
    · rw [runStage567_pagesJobs]
      simp [pageJobs]
    · rw [runStage567_config_entries]

theorem c6_entries_from_pages_witness :
    (deriveEntries "b" 2 (fun _ => none) = deriveEntries "b" 2 (fun _ => none)) ∧
    ((runPipeline "b" ⟨5, [], []⟩ 7 (fun _ => false) (fun _ => none)).pagesJobs.length = 7 ∧
      (runPipeline "b" ⟨5, [], []⟩ 7 (fun _ => false) (fun _ => none)).pagesJobs =
        pageJobs "b" 7 ∧
      (runPipeline "b" ⟨5, [], []⟩ 7 (fun _ => false) (fun _ => none)).config.entries =
        deriveEntries "b" 7 (fun _ => none)) :=
  ⟨(c6_entries_from_pages "b" 2 ⟨5, [], []⟩ (fun _ => false) (fun _ => none) (fun _ => none)
      (by decide) (fun _ _ _ => rfl)).1,
   (c6_entries_from_pages "b" 7 ⟨5, [], []⟩ (fun _ => false) (fun _ => none) (fun _ => none)
      (by decide) (fun _ _ _ => rfl)).2.2 (by decide)⟩

/-- C7: for every state of `checkpoint.entries` and of the disk, Step 5
computes exactly one job per entry whose destination file is absent; when that
job list is non-empty it submits the jobs and Step 6 re-derives and persists
`checkpoint.torrents`; when it is empty both the fetch and the re-derivation
are skipped and `checkpoint.torrents` is unchanged with no further save. -/
theorem c7_entry_stage (base : String) (cfg : Config) (pjobs : List Job) (saves0 : List Config)
    (disk : String → Bool) (rf : String → Option (List String)) :
    (runStage567 base cfg pjobs saves0 disk rf).entriesJobs =
      (cfg.entries.map (fun e => (entryUrl e, entryPath base e))).filter
        (fun j => !(disk j.2)) ∧
    (∀ e ∈ cfg.entries,
      ((entryUrl e, entryPath base e) ∈ (runStage567 base cfg pjobs saves0 disk rf).entriesJobs ↔
        disk (entryPath base e) = false)) ∧
    ((runStage567 base cfg pjobs saves0 disk rf).entriesJobs ≠ [] →
      (runStage567 base cfg pjobs saves0 disk rf).config.torrents =
        deriveTorrents base cfg.entries rf ∧
      (runStage567 base cfg pjobs saves0 disk rf).saves =
        saves0 ++ [{ cfg with torrents := deriveTorrents base cfg.entries rf }]) ∧
    ((runStage567 base cfg pjobs saves0 disk rf).entriesJobs = [] →
      (runStage567 base cfg pjobs saves0 disk rf).config.torrents = cfg.torrents ∧
      (runStage567 base cfg pjobs saves0 disk rf).saves = saves0) := by
  refine ⟨runStage567_entriesJobs .., ?_, ?_, ?_⟩
  · intro e he
    rw [runStage567_entriesJobs]
    unfold entryJobs
    constructor
    · intro hm
      have := (List.mem_filter.mp hm).2
      simpa using this
    · intro hd
      refine List.mem_filter.mpr ⟨List.mem_map_of_mem _ he, ?_⟩
      simp [hd]
  · intro h
    rw [runStage567_entriesJobs] at h
    have hlen : (entryJobs base cfg.entries disk).length > 0 := List.length_pos.mpr h
    constructor
    · rw [runStage567_config_torrents, if_pos hlen]
    · rw [runStage567_saves, if_pos hlen]
  · intro h
    rw [runStage567_entriesJobs] at h
    have hlen : ¬ (entryJobs base cfg.entries disk).length > 0 := by
      rw [h]; simp
    constructor
    · rw [runStage567_config_torrents, if_neg hlen]
    · rw [runStage567_saves, if_neg hlen]
      simp

theorem c7_entry_stage_witness :
    (((entryUrl "e", entryPath "b" "e") ∈
        (runStage567 "b" ⟨1, ["e"], []⟩ [] [] (fun _ => false) (fun _ => none)).entriesJobs ↔
      (fun _ => false : String → Bool) (entryPath "b" "e") = false) ∧
     ((runStage567 "b" ⟨1, ["e"], []⟩ [] [] (fun _ => false) (fun _ => none)).config.torrents =
        deriveTorrents "b" ["e"] (fun _ => none) ∧
      (runStage567 "b" ⟨1, ["e"], []⟩ [] [] (fun _ => false) (fun _ => none)).saves =
        [] ++ [⟨1, ["e"], deriveTorrents "b" ["e"] (fun _ => none)⟩])) ∧
    ((runStage567 "b" ⟨1, [], ["t"]⟩ [] [] (fun _ => false) (fun _ => none)).config.torrents =
        ["t"] ∧
     (runStage567 "b" ⟨1, [], ["t"]⟩ [] [] (fun _ => false) (fun _ => none)).saves = []) :=
  ⟨⟨(c7_entry_stage "b" ⟨1, ["e"], []⟩ [] [] (fun _ => false) (fun _ => none)).2.1 "e"
      (by decide),
    (c7_entry_stage "b" ⟨1, ["e"], []⟩ [] [] (fun _ => false) (fun _ => none)).2.2.1
      (by decide)⟩,
   (c7_entry_stage "b" ⟨1, [], ["t"]⟩ [] [] (fun _ => false) (fun _ => none)).2.2.2
      (by decide)⟩

/-! ### Fetch with retry (Step helper `get_text`, src/main.rs lines 274-281) -/

/-- Modelled from the spec: the retry combinator `retry::retry_with_index` and
the delay iterator `Exponential::from_millis(100).map(jitter).take(10)` used by
`get_text` belong to the external `retry` crate, whose code is not in this
repository; the spec states "Fetch-with-retry performs up to 10 attempts with
exponential backoff starting at 100 ms, each attempt jittered ...; any
transport or HTTP-level failure on an attempt triggers the next attempt;
exhausting all attempts is reported as the job's failure to the worker loop".
`op i` is the outcome of attempt number `i` (`none` when the attempt failed);
`fuel` is the remaining attempt budget. -/
def retryAttempts {α : Type} : Nat → Nat → (Nat → Option α) → Option α
  | 0, _, _ => none
  | fuel + 1, idx, op =>
    match op idx with
    | some r => some r
    | none => retryAttempts fuel (idx + 1) op

/-- `get_text` (src/main.rs lines 274-281): run the fetch with an attempt
budget of 10 starting at attempt index 1. -/
def get_text (op : Nat → Option String) : Option String := retryAttempts 10 1 op

/-- Modelled from the spec: the backoff delay (milliseconds) before each retry,
prior to jittering — exponentially growing, starting at 100 ms. -/
def expDelays : List Nat := (List.range' 1 10).map (fun i => 100 ^ i)

/-- Modelled from the spec: the delays actually slept are the exponential
delays passed through the jitter transformation. -/
def jitteredDelays (jitter : Nat → Nat) : List Nat := expDelays.map jitter

theorem retryAttempts_none_iff {α : Type} :
    ∀ (fuel idx : Nat) (op : Nat → Option α),
      (retryAttempts fuel idx op = none ↔ ∀ i, idx ≤ i → i < idx + fuel → op i = none)
  | 0, idx, op => by
    constructor
    · intro _ i h1 h2
      omega
    · intro _
      rfl
  | fuel + 1, idx, op => by
    rcases h : op idx with _ | r
    · rw [show retryAttempts (fuel + 1) idx op = retryAttempts fuel (idx + 1) op by
        simp [retryAttempts, h]]
      rw [retryAttempts_none_iff fuel (idx + 1) op]
      constructor
      · intro hall i h1 h2
        rcases eq_or_lt_of_le h1 with rfl | hlt
        · exact h
        · exact hall i hlt (by omega)
      · intro hall i h1 h2
        exact hall i (by omega) (by omega)
    · rw [show retryAttempts (fuel + 1) idx op = some r by simp [retryAttempts, h]]
      constructor
      · intro hc
        cases hc
      · intro hall
        have h2 := hall idx (le_refl idx) (by omega)
        rw [h] at h2
        cases h2

theorem retryAttempts_some {α : Type} :
    ∀ (fuel idx : Nat) (op : Nat → Option α) (r : α),
      retryAttempts fuel idx op = some r →
      ∃ i, idx ≤ i ∧ i < idx + fuel ∧ op i = some r ∧ ∀ j, idx ≤ j → j < i → op j = none
  | 0, idx, op, r => by
    intro h
    simp [retryAttempts] at h
  | fuel + 1, idx, op, r => by
    intro h
    rcases ho : op idx with _ | r'
    · rw [show retryAttempts (fuel + 1) idx op = retryAttempts fuel (idx + 1) op by
        simp [retryAttempts, ho]] at h
      rcases retryAttempts_some fuel (idx + 1) op r h with ⟨i, h1, h2, h3, h4⟩
      refine ⟨i, by omega, by omega, h3, ?_⟩
      intro j hj1 hj2
      rcases eq_or_lt_of_le hj1 with rfl | hlt
      · exact ho
      · exact h4 j hlt hj2
    · rw [show retryAttempts (fuel + 1) idx op = some r' by simp [retryAttempts, ho]] at h
      cases h
      exact ⟨idx, le_refl idx, by omega, ho, fun j hj1 hj2 => by omega⟩

/-- C4: fetch-with-retry performs at most 10 attempts (every attempt index
queried lies in 1..10), any failed attempt triggers the next one, exhausting
all 10 attempts yields the job's failure (`none`), and the operation is total
(it is a terminating function into `Option`); the backoff delays grow
exponentially starting at 100 ms and are each passed through the jitter. -/
theorem c4_fetch_retry (op : Nat → Option String) (jitter : Nat → Nat) :
    (get_text op = none ↔ ∀ i, 1 ≤ i → i ≤ 10 → op i = none) ∧
    (∀ r, get_text op = some r →
      ∃ i, 1 ≤ i ∧ i ≤ 10 ∧ op i = some r ∧ ∀ j, 1 ≤ j → j < i → op j = none) ∧
    expDelays.head? = some 100 ∧
    List.Chain' (· < ·) expDelays ∧
    jitteredDelays jitter = expDelays.map jitter := by
  refine ⟨?_, ?_, by decide, ?_, rfl⟩
  · unfold get_text
    rw [retryAttempts_none_iff]
    constructor
    · intro hall i h1 h2
      exact hall i h1 (by omega)
    · intro hall i h1 h2
      exact hall i h1 (by omega)
  · intro r h
    rcases retryAttempts_some 10 1 op r h with ⟨i, h1, h2, h3, h4⟩
    exact ⟨i, h1, by omega, h3, h4⟩
  · have he : expDelays = [100, 10000, 1000000, 100000000, 10000000000, 1000000000000,
        100000000000000, 10000000000000000, 1000000000000000000,
        100000000000000000000] := by decide
    rw [he]
    simp only [List.chain'_cons, List.chain'_singleton, and_true]
    norm_num

theorem c4_fetch_retry_witness :
    ∃ i, 1 ≤ i ∧ i ≤ 10 ∧
      (fun k => if k = 3 then some "ok" else none) i = some "ok" ∧
      ∀ j, 1 ≤ j → j < i → (fun k => if k = 3 then some "ok" else none) j = none :=
  (c4_fetch_retry (fun k => if k = 3 then some "ok" else none) id).2.1 "ok" (by decide)

/-! ### Proxy validation (Step 1, src/main.rs lines 39-60 and 194-215) -/

/-- The observable outcome of probing one proxy candidate: the candidate's
scheme string, whether `client.get(ADDR_URL).send()` succeeded, whether
reading the response body succeeded, and the body text. -/
structure Candidate where
  proxy : String
  sendOk : Bool
  bodyOk : Bool
  remoteText : String
deriving DecidableEq

/-- `check_proxy` (src/main.rs lines 194-215): the kept client (represented by
its proxy scheme) and the diagnostic printed to stderr, if any.  A send
failure or a body-read failure prints "Failed to get response", an echoed IP
equal to the direct baseline prints "Failed to connect"; only a successful
probe with a different IP keeps the client. -/
def check_proxy (baseline : String) (c : Candidate) : Option Client × Option String :=
  if c.sendOk = false then (none, some ("Failed to get response " ++ c.proxy))
  else if c.bodyOk = false then (none, some ("Failed to get response " ++ c.proxy))
  else if c.remoteText = baseline then (none, some ("Failed to connect " ++ c.proxy))
  else (some c.proxy, none)

/-- Step 1's validation (src/main.rs lines 40-60): keep exactly the candidates
`check_proxy` accepts. -/
def validate (baseline : String) (cs : List Candidate) : List Client :=
  cs.filterMap (fun c => (check_proxy baseline c).1)

/-- C8: validating a singleton candidate set returns a non-empty client set
iff the request through the candidate succeeded (both send and body read) and
the returned IP text differs from the direct baseline; in every other case the
candidate is discarded and a diagnostic is logged. -/
theorem c8_check_proxy (baseline : String) (c : Candidate) :
    (validate baseline [c] ≠ [] ↔
      (c.sendOk = true ∧ c.bodyOk = true ∧ c.remoteText ≠ baseline)) ∧
    (validate baseline [c] = [] ↔ (check_proxy baseline c).2 ≠ none) := by
  rcases c with ⟨p, s, b, t⟩
  cases s <;> cases b <;> by_cases ht : t = baseline <;>
    simp [validate, check_proxy, ht]

/-! ### The downloader's worker pool (save_files, src/main.rs lines 218-241) -/

/-- The state of `save_files`' shared bounded queue: the jobs currently in the
ArrayQueue (head = next pop) and, per worker, the job it has popped and is
currently processing, if any. -/
structure DlState where
  queue : List Job
  holding : List (Option Job)

/-- One interleaving step of the worker pool: an idle worker pops the queue's
head (line 229); a worker finishes its job, having written the destination
file (line 232); or a worker whose fetch failed with all retry attempts
exhausted logs the error and pushes the job back (lines 233-236). -/
inductive DlStep : DlState → DlState → Prop
  | pop {s : DlState} {i : Nat} {j : Job} {rest : List Job}
      (hfree : s.holding[i]? = some none) (hq : s.queue = j :: rest) :
      DlStep s ⟨rest, s.holding.set i (some j)⟩
  | done {s : DlState} {i : Nat} {j : Job}
      (hh : s.holding[i]? = some (some j)) :
      DlStep s ⟨s.queue, s.holding.set i none⟩
  | requeue {s : DlState} {i : Nat} {j : Job}
      (hh : s.holding[i]? = some (some j)) :
      DlStep s ⟨s.queue ++ [j], s.holding.set i none⟩

/-- States reachable during one `save_files(clients, files, total, text)` call
with `w` workers: the queue is created with capacity `total = jobs.length` and
filled with exactly the jobs (lines 219-220, every push fits), all workers
idle. -/
inductive DlReachable (jobs : List Job) (w : Nat) : DlState → Prop
  | init : DlReachable jobs w ⟨jobs, List.replicate w none⟩
  | step {s s' : DlState} (h : DlReachable jobs w s) (hs : DlStep s s') :
      DlReachable jobs w s'

/-- The state after worker `i` requeues its failed job `j`. -/
def requeued (s : DlState) (i : Nat) (j : Job) : DlState :=
  ⟨s.queue ++ [j], s.holding.set i none⟩

/-- Jobs in flight: queued plus held by some worker.  The queue capacity
argument of `ArrayQueue::new` equals the submitted job count, and `load`
never exceeds it. -/
def DlState.load (s : DlState) : Nat :=
  s.queue.length + s.holding.countP (fun o => o.isSome)

theorem countP_isSome_replicate (w : Nat) :
    (List.replicate w (none : Option Job)).countP (fun o => o.isSome) = 0 := by
  induction w with
  | zero => rfl
  | succ n ih => simp [List.replicate_succ, List.countP_cons, ih]

theorem countP_isSome_set_some :
    ∀ (l : List (Option Job)) (i : Nat) (j : Job), l[i]? = some none →
      (l.set i (some j)).countP (fun o => o.isSome) = l.countP (fun o => o.isSome) + 1
  | [], i, j, h => by simp at h
  | a :: t, 0, j, h => by
    have ha : a = none := by simpa using h
    subst ha
    simp [List.countP_cons]
  | a :: t, i + 1, j, h => by
    have h' : t[i]? = some none := by simpa using h
    show (a :: t.set i (some j)).countP (fun o => o.isSome) =
      (a :: t).countP (fun o => o.isSome) + 1
    rw [List.countP_cons, List.countP_cons, countP_isSome_set_some t i j h']
    omega

theorem countP_isSome_set_none :
    ∀ (l : List (Option Job)) (i : Nat) (j : Job), l[i]? = some (some j) →
      (l.set i none).countP (fun o => o.isSome) + 1 = l.countP (fun o => o.isSome)
  | [], i, j, h => by simp at h
  | a :: t, 0, j, h => by
    have ha : a = some j := by simpa using h
    subst ha
    simp [List.countP_cons]
  | a :: t, i + 1, j, h => by
    have h' : t[i]? = some (some j) := by simpa using h
    show (a :: t.set i none).countP (fun o => o.isSome) + 1 =
      (a :: t).countP (fun o => o.isSome)
    rw [List.countP_cons, List.countP_cons, ← countP_isSome_set_none t i j h']
    omega

theorem countP_isSome_pos :
    ∀ (l : List (Option Job)) (i : Nat) (j : Job), l[i]? = some (some j) →
      1 ≤ l.countP (fun o => o.isSome)
  | [], i, j, h => by simp at h
  | a :: t, 0, j, h => by
    have ha : a = some j := by simpa using h
    subst ha
    simp [List.countP_cons]
  | a :: t, i + 1, j, h => by
    have h' : t[i]? = some (some j) := by simpa using h
    rw [List.countP_cons]
    have := countP_isSome_pos t i j h'
    omega

theorem dl_load_le {jobs : List Job} {w : Nat} {s : DlState} (h : DlReachable jobs w s) :
    s.load ≤ jobs.length := by
  induction h with
  | init => simp [DlState.load, countP_isSome_replicate]
  | step h hs ih =>
    rename_i s _
    cases hs with
    | pop hfree hq =>
      rename_i i j rest
      have hset := countP_isSome_set_some s.holding i j hfree
      have hlen : s.queue.length = rest.length + 1 := by
        rw [hq]
        rfl
      simp only [DlState.load] at ih ⊢
      rw [hset]
      omega
    | done hh =>
      have hset := countP_isSome_set_none _ _ _ hh
      simp only [DlState.load] at ih ⊢
      omega
    | requeue hh =>
      have hset := countP_isSome_set_none _ _ _ hh
      simp only [DlState.load, List.length_append] at ih ⊢
      simp only [List.length_cons, List.length_nil]
      omega

/-- C10: in every reachable state of `save_files`' worker pool in which some
worker holds a job — the precondition of the failure requeue
`queue.push(msg).unwrap()` at src/main.rs line 235 — the queue is strictly
below its capacity (the submitted job count), so the push finds a free slot
and the unwrap never panics. -/
theorem c10_requeue_never_panics (jobs : List Job) (w : Nat) (s : DlState) (i : Nat) (j : Job)
    (h : DlReachable jobs w s) (hh : s.holding[i]? = some (some j)) :
    s.queue.length < jobs.length := by
  have hload := dl_load_le h
  have hpos := countP_isSome_pos _ _ _ hh
  simp only [DlState.load] at hload
  omega

theorem c10_requeue_never_panics_witness :
    (DlState.mk [] [some (("u", "p") : Job)]).queue.length < [(("u", "p") : Job)].length :=
  c10_requeue_never_panics [("u", "p")] 1 ⟨[], [some ("u", "p")]⟩ 0 ("u", "p")
    (DlReachable.step DlReachable.init
      (@DlStep.pop ⟨[("u", "p")], [none]⟩ 0 ("u", "p") [] rfl rfl))
    rfl

/-- C9: unrecoverable setup errors abort before any stage does work — with an
empty validated client set, `main` evaluates `&clients[0]` (src/main.rs line
67), which panics, so the run produces no trace: no job is submitted and no
checkpoint write happens — whereas an individual download failure inside a
stage only logs and requeues: the requeue is a legal step of the worker pool,
the pool keeps running (the resulting state is again reachable), the failed
job is preserved at the back of the queue, and the requeued queue still fits
the capacity. -/
theorem c9_error_handling :
    (∀ (base : String) (cfg : Config) (scraped : Nat) (disk : String → Bool)
        (rf : String → Option (List String)),
      runMain base [] cfg scraped disk rf = Except.error RunError.noClients) ∧
    (∀ (jobs : List Job) (w : Nat) (s : DlState) (i : Nat) (j : Job),
      DlReachable jobs w s → s.holding[i]? = some (some j) →
        DlStep s (requeued s i j) ∧
        DlReachable jobs w (requeued s i j) ∧
        j ∈ (requeued s i j).queue ∧
        (requeued s i j).queue.length ≤ jobs.length) := by
  refine ⟨fun _ _ _ _ _ => rfl, ?_⟩
  intro jobs w s i j h hh
  have hstep : DlStep s (requeued s i j) := DlStep.requeue hh
  refine ⟨hstep, DlReachable.step h hstep, ?_, ?_⟩
  · simp [requeued]
  · have hload := dl_load_le h
    have hpos := countP_isSome_pos _ _ _ hh
    simp only [DlState.load] at hload
    simp only [requeued, List.length_append, List.length_cons, List.length_nil]
    omega

theorem c9_error_handling_witness :
    runMain "b" [] ⟨0, [], []⟩ 0 (fun _ => false) (fun _ => none) =
      Except.error RunError.noClients ∧
    (DlStep (⟨[], [some ("w", "q")]⟩ : DlState)
        (requeued ⟨[], [some ("w", "q")]⟩ 0 ("w", "q")) ∧
      DlReachable [("w", "q")] 1 (requeued ⟨[], [some ("w", "q")]⟩ 0 ("w", "q")) ∧
      ("w", "q") ∈ (requeued (⟨[], [some ("w", "q")]⟩ : DlState) 0 ("w", "q")).queue ∧
      (requeued (⟨[], [some ("w", "q")]⟩ : DlState) 0 ("w", "q")).queue.length ≤
        [(("w", "q") : Job)].length) :=
  ⟨c9_error_handling.1 "b" ⟨0, [], []⟩ 0 (fun _ => false) (fun _ => none),
   c9_error_handling.2 [("w", "q")] 1 ⟨[], [some ("w", "q")]⟩ 0 ("w", "q")
     (DlReachable.step DlReachable.init
       (@DlStep.pop ⟨[("w", "q")], [none]⟩ 0 ("w", "q") [] rfl rfl))
     rfl⟩

end Torrents
